import Mathlib

/-
Verification development for the recordBabyinNICU capture scripts.

The repository holds four near-duplicate RealSense L515 capture scripts
(H_depth_ir_autosplit.py, H_rgb_ir.py, H_rgb_ir_depth.py,
lossless_RGB_IR_depth.py) plus a preview script.  Each script opens camera
streams, loops reading frame bundles, writes them to per-block sink files
(HDF5 for depth, video containers for IR and RGB), and rotates those files
on a fixed period.  The definitions below are a shallow embedding of the
pieces of those scripts that the verified properties are about: the
depth-to-8-bit preview conversion, the per-block capture loop (modelled as
a step function over an explicit state, driven by a list of input events),
the info-file writes, and the cleanup actions that run on a user interrupt.
-/

/-- A synchronized frame bundle as returned by one successful
`pipe.wait_for_frames` call.  Each flag records whether the corresponding
sub-frame is present in the bundle (`frames.get_depth_frame()` etc. return
a falsy object when the sub-stream is missing). -/
structure Bundle where
  hasDepth : Bool
  hasIR : Bool
  hasColor : Bool
deriving DecidableEq, Repr

/-- One iteration of an in-block capture loop: either the frame wait timed
out (`except RsErr: continue`) or a bundle was returned. -/
inductive Ev
  | timeout
  | bundle (b : Bundle)
deriving DecidableEq, Repr

/-- The two states of the block-rotation driver at which an external
interrupt can be observed. -/
inductive Phase
  | betweenBlocks
  | inBlock
deriving DecidableEq, Repr

/-- The cleanup operations that the scripts can run while shutting down. -/
inductive CleanupOp
  | closeH5
  | releaseIRWriter
  | releaseRGBWriter
  | destroyWindows
  | pipeStop
deriving DecidableEq, Repr

namespace Autosplit

/-! Embedding of `src/H_depth_ir_autosplit.py`. -/

def W : ℕ := 1024

def H : ℕ := 768

def FPS : ℕ := 30

def SAVE_INTERVAL : ℕ := 6

def FILE_PERIOD_MIN : ℕ := 1

def PCT_CLIP : ℚ := 99

/-- `BLOCK_SECONDS = FILE_PERIOD_MIN * 60` (main, line 162). -/
def BLOCK_SECONDS : ℕ := FILE_PERIOD_MIN * 60

/-- Insert a rational into a sorted list, keeping it sorted. -/
def insertSorted (x : ℚ) : List ℚ → List ℚ
  | [] => [x]
  | y :: ys => if x ≤ y then x :: y :: ys else y :: insertSorted x ys

/-- Insertion sort on rationals (ascending), used to model the sorting
step inside `np.percentile`. -/
def sortQ : List ℚ → List ℚ
  | [] => []
  | x :: xs => insertSorted x (sortQ xs)

/-- Model of `np.percentile(xs, q)` with the default linear interpolation:
sort the samples, take the virtual index `h = (n-1)*q/100`, and linearly
interpolate between the neighbouring order statistics.  Returns 0 on the
empty list (NumPy raises there; `depth_to_8bit` never calls it on an empty
population). -/
def npPercentile (xs : List ℚ) (q : ℚ) : ℚ :=
  let s := sortQ xs
  let n := s.length
  if n = 0 then 0
  else
    let h : ℚ := ((n : ℚ) - 1) * q / 100
    let i : ℕ := (⌊h⌋).toNat
    let lo := s.getD i 0
    let hi := s.getD (min (i + 1) (n - 1)) 0
    lo + (h - (i : ℚ)) * (hi - lo)

/-- The strictly-positive samples of the depth buffer:
`valid = d16[d16 > 0]` (depth_to_8bit, line 29). -/
def valid_of (d16 : List ℕ) : List ℕ :=
  d16.filter (fun v => 0 < v)

/-- The divisor used by `depth_to_8bit`:
`vmax = np.percentile(valid, PCT_CLIP) if valid.size else 1`
(depth_to_8bit, line 30). -/
def depthVmax (d16 : List ℕ) : ℚ :=
  if (valid_of d16).length ≠ 0 then
    npPercentile ((valid_of d16).map (fun v => (v : ℚ))) PCT_CLIP
  else 1

/-- `np.clip(x, lo, hi)` on one sample. -/
def clip (x lo hi : ℚ) : ℚ := min (max x lo) hi

/-- Model of `depth_to_8bit` (lines 28-32): clip each 16-bit sample to
`[0, vmax]`, rescale by `/ vmax * 255`, and truncate to uint8
(`astype(np.uint8)` truncates toward zero and wraps modulo 256). -/
def depth_to_8bit (d16 : List ℕ) : List ℕ :=
  let vmax := depthVmax d16
  d16.map (fun (v : ℕ) => (⌊clip (v : ℚ) 0 vmax / vmax * 255⌋).toNat % 256)

end Autosplit

namespace Autosplit

/-! The in-block capture loop of `H_depth_ir_autosplit.py` (main,
lines 161-232), modelled as a step function on an explicit block state
driven by one `Ev` per loop iteration. -/

/-- The mutable data of one block in `H_depth_ir_autosplit.main`:
the shapes of the two HDF5 datasets, the number of frames written to the
IR video writer, the `saved_depth` counter, the global `frame_id` tick
counter, and an identifier of the h5/writer pair opened for this block. -/
structure BlockState where
  depthRows : ℕ
  tsRows : ℕ
  irWritten : ℕ
  saved_depth : ℕ
  frame_id : ℕ
  handle : ℕ
deriving DecidableEq, Repr

/-- The process-level state that survives across blocks: `frame_id`
(initialized once at line 161, before the outer loop) and a counter
handing out fresh sink handles. -/
structure ProcState where
  frame_id : ℕ
  nextHandle : ℕ
deriving DecidableEq, Repr

/-- One successful `wait_for_frames` iteration (lines 200-227): if either
requested sub-frame is missing the bundle is dropped (`continue`);
otherwise every `SAVE_INTERVAL`-th tick appends one depth row and one
timestamp (and bumps `saved_depth`), the IR frame is written to the video
writer every tick, and `frame_id` is incremented. -/
def tick (s : BlockState) (b : Bundle) : BlockState :=
  if b.hasDepth && b.hasIR then
    let s1 :=
      if s.frame_id % SAVE_INTERVAL = 0 then
        { s with depthRows := s.depthRows + 1, tsRows := s.tsRows + 1,
                 saved_depth := s.saved_depth + 1 }
      else s
    { s1 with irWritten := s1.irWritten + 1, frame_id := s1.frame_id + 1 }
  else s

/-- One iteration of the inner loop: a timeout (`except RsErr: continue`,
lines 195-198) leaves the state untouched; a bundle is processed by
`tick`. -/
def step (s : BlockState) : Ev → BlockState
  | Ev.timeout => s
  | Ev.bundle b => tick s b

/-- State (a), between blocks (lines 187-190): open a fresh h5/writer
pair, reset `saved_depth` to 0; the datasets start empty; `frame_id` is
NOT reset, it carries its process-level value. -/
def blockStart (p : ProcState) : BlockState :=
  { depthRows := 0, tsRows := 0, irWritten := 0, saved_depth := 0,
    frame_id := p.frame_id, handle := p.nextHandle }

/-- Normal end of a block (lines 230-232): the handles are closed and a
fresh handle will be used next; `frame_id` flows back into the process
state. -/
def blockEnd (s : BlockState) : ProcState :=
  { frame_id := s.frame_id, nextHandle := s.handle + 1 }

/-- Run the inner loop over a list of iteration events. -/
def runBlock (s : BlockState) : List Ev → BlockState
  | [] => s
  | e :: es => runBlock (step s e) es

/-- Run a whole sequence of blocks, threading the process state. -/
def runBlocks (p : ProcState) : List (List Ev) → ProcState
  | [] => p
  | es :: rest => runBlocks (blockEnd (runBlock (blockStart p) es)) rest

/-- The break condition at the top of the inner loop (line 193):
`if time.time() - block_start_time > BLOCK_SECONDS: break`. -/
def blockBroke (elapsed : ℚ) : Bool := decide ((BLOCK_SECONDS : ℚ) < elapsed)

/-- The inner loop with its clock made explicit: each iteration carries
the wall-clock time it consumes; the break condition is checked at the
top of every iteration, exactly as at line 192-194. -/
def runBlockT (s : BlockState) (elapsed : ℚ) : List (Ev × ℚ) → BlockState × ℚ
  | [] => (s, elapsed)
  | (e, dt) :: es =>
    if blockBroke elapsed then (s, elapsed)
    else runBlockT (step s e) (elapsed + dt) es

/-- Cleanup that actually runs when a `KeyboardInterrupt` is observed
(lines 234-238): there is no try/finally around the in-block code, so
`h5.close()`/`writer.release()` (line 231) run only on a normal inner
break; the interrupt path runs only the outer `finally`:
`cv.destroyAllWindows()` (VISUALIZE is True) and `pipe.stop()`. -/
def interruptCleanup : Phase → List CleanupOp
  | Phase.betweenBlocks => [CleanupOp.destroyWindows, CleanupOp.pipeStop]
  | Phase.inBlock => [CleanupOp.destroyWindows, CleanupOp.pipeStop]

/-- Cleanup run at a normal (timer-driven) block end, line 231. -/
def normalBlockClose : List CleanupOp :=
  [CleanupOp.closeH5, CleanupOp.releaseIRWriter]

end Autosplit

namespace RgbIrDepth

/-! Embedding of `src/H_rgb_ir_depth.py` (main, lines 96-205). -/

def FPS : ℕ := 30

def FILE_PERIOD_MIN : ℕ := 1

/-- `BLOCK_SECONDS = FILE_PERIOD_MIN * 60` (line 111). -/
def BLOCK_SECONDS : ℕ := FILE_PERIOD_MIN * 60

/-- Mutable data of one block: dataset shapes, video frame counts, the
per-block `frame_id` counter (reset at line 155), and a handle id for
this block's sinks. -/
structure BlockState where
  depthRows : ℕ
  tsRows : ℕ
  irWritten : ℕ
  rgbWritten : ℕ
  frame_id : ℕ
  handle : ℕ
deriving DecidableEq, Repr

/-- One successful iteration (lines 165-194): if any of the three
requested sub-frames is missing the whole bundle is dropped; otherwise
one depth row and one timestamp are appended and one IR and one RGB frame
are written, and `frame_id` is incremented. -/
def tick (s : BlockState) (b : Bundle) : BlockState :=
  if b.hasDepth && b.hasIR && b.hasColor then
    { s with depthRows := s.depthRows + 1, tsRows := s.tsRows + 1,
             irWritten := s.irWritten + 1, rgbWritten := s.rgbWritten + 1,
             frame_id := s.frame_id + 1 }
  else s

/-- One loop iteration: timeout (lines 160-163) leaves the state
untouched. -/
def step (s : BlockState) : Ev → BlockState
  | Ev.timeout => s
  | Ev.bundle b => tick s b

/-- Block start (lines 150-155): fresh sinks, all counters zero,
`frame_id = 0` is reset inside the outer loop in this variant. -/
def blockStart (handle : ℕ) : BlockState :=
  { depthRows := 0, tsRows := 0, irWritten := 0, rgbWritten := 0,
    frame_id := 0, handle := handle }

/-- Run the inner loop over a list of iteration events. -/
def runBlock (s : BlockState) : List Ev → BlockState
  | [] => s
  | e :: es => runBlock (step s e) es

/-- The inner loop guard (line 159):
`while time.monotonic() - block_start <= BLOCK_SECONDS`. -/
def loopContinues (elapsed : ℚ) : Bool := decide (elapsed ≤ (BLOCK_SECONDS : ℚ))

/-- The inner loop with its clock made explicit; the guard is evaluated
at the top of every iteration. -/
def runBlockT (s : BlockState) (elapsed : ℚ) : List (Ev × ℚ) → BlockState × ℚ
  | [] => (s, elapsed)
  | (e, dt) :: es =>
    if loopContinues elapsed then runBlockT (step s e) (elapsed + dt) es
    else (s, elapsed)

/-- Cleanup on `KeyboardInterrupt`: the inner `finally` (line 197) closes
the three sinks whenever the interrupt lands inside the block, and the
outer `finally` (line 205) stops the pipeline in every case (VISUALIZE is
False, so no window teardown). -/
def interruptCleanup : Phase → List CleanupOp
  | Phase.betweenBlocks => [CleanupOp.pipeStop]
  | Phase.inBlock =>
      [CleanupOp.closeH5, CleanupOp.releaseIRWriter,
       CleanupOp.releaseRGBWriter, CleanupOp.pipeStop]

end RgbIrDepth

namespace RgbIr

/-! Embedding of `src/H_rgb_ir.py` (main, lines 67-152). -/

def FPS : ℕ := 30

def FILE_PERIOD_MIN : ℕ := 1

/-- `BLOCK_SECONDS = FILE_PERIOD_MIN * 60` (line 82). -/
def BLOCK_SECONDS : ℕ := FILE_PERIOD_MIN * 60

/-- Mutable data of one block: the two video frame counts and a handle id
for this block's writers. -/
structure BlockState where
  irWritten : ℕ
  rgbWritten : ℕ
  handle : ℕ
deriving DecidableEq, Repr

/-- One successful iteration (lines 124-134): if the IR or the color
sub-frame is missing the bundle is dropped; otherwise one frame goes to
each writer. -/
def tick (s : BlockState) (b : Bundle) : BlockState :=
  if b.hasIR && b.hasColor then
    { s with irWritten := s.irWritten + 1, rgbWritten := s.rgbWritten + 1 }
  else s

/-- One loop iteration: timeout (lines 119-122) leaves the state
untouched. -/
def step (s : BlockState) : Ev → BlockState
  | Ev.timeout => s
  | Ev.bundle b => tick s b

/-- Block start (lines 112-114): fresh writers, counters implicit
(modelled as zero). -/
def blockStart (handle : ℕ) : BlockState :=
  { irWritten := 0, rgbWritten := 0, handle := handle }

/-- Run the inner loop over a list of iteration events. -/
def runBlock (s : BlockState) : List Ev → BlockState
  | [] => s
  | e :: es => runBlock (step s e) es

/-- The inner loop guard (line 118):
`while time.time() - block_start <= BLOCK_SECONDS`. -/
def loopContinues (elapsed : ℚ) : Bool := decide (elapsed ≤ (BLOCK_SECONDS : ℚ))

/-- The inner loop with its clock made explicit. -/
def runBlockT (s : BlockState) (elapsed : ℚ) : List (Ev × ℚ) → BlockState × ℚ
  | [] => (s, elapsed)
  | (e, dt) :: es =>
    if loopContinues elapsed then runBlockT (step s e) (elapsed + dt) es
    else (s, elapsed)

/-- Cleanup on `KeyboardInterrupt`: the inner `finally` (line 144)
releases both writers when the interrupt lands inside the block; the
outer `finally` (lines 149-152) destroys the preview windows (VISUALIZE
is True) and stops the pipeline in every case. -/
def interruptCleanup : Phase → List CleanupOp
  | Phase.betweenBlocks => [CleanupOp.destroyWindows, CleanupOp.pipeStop]
  | Phase.inBlock =>
      [CleanupOp.releaseIRWriter, CleanupOp.releaseRGBWriter,
       CleanupOp.destroyWindows, CleanupOp.pipeStop]

end RgbIr

namespace Lossless

/-! Embedding of `src/lossless_RGB_IR_depth.py` (module top level). -/

def DEPTH_FPS : ℕ := 30

def IR_FPS : ℕ := 30

def RGB_FPS : ℕ := 6

def BLOCK_SEC : ℕ := 60

def QUEUE_SIZE : ℕ := 32

/-- An HDF5 file as created by `open_h5` (lines 79-88): two datasets of
FIXED first-dimension size (no `maxshape`, hence not resizable), with
h5py's default zero fill value.  Row payloads are abstracted to one
natural number per row. -/
structure H5File where
  depthSize : ℕ
  tsSize : ℕ
  depthData : ℕ → ℕ
  tsData : ℕ → ℕ

/-- `open_h5` (lines 79-88): both datasets are created with first
dimension `DEPTH_FPS * BLOCK_SEC` and are zero-filled. -/
def open_h5 : H5File :=
  { depthSize := DEPTH_FPS * BLOCK_SEC, tsSize := DEPTH_FPS * BLOCK_SEC,
    depthData := fun _ => 0, tsData := fun _ => 0 }

/-- In-place assignment `dset[i] = v`. -/
def writeDepthRow (f : H5File) (i v : ℕ) : H5File :=
  { f with depthData := fun j => if j = i then v else f.depthData j }

/-- In-place assignment `ts[i] = v`. -/
def writeTsRow (f : H5File) (i v : ℕ) : H5File :=
  { f with tsData := fun j => if j = i then v else f.tsData j }

/-- The mutable data of one block of the lossless script: the h5 file,
the three counters reset at line 120, the driver-fed RGB frame queue
`q_rgb` (which persists across blocks), and the list of frames written to
the RGB sink. -/
structure LState where
  h5 : H5File
  depth_idx : ℕ
  ir_count : ℕ
  rgb_count : ℕ
  rgbQueue : List ℕ
  rgbWritten : List ℕ

/-- One iteration of the lossless capture loop: a frame-wait timeout
(`except rs.error: continue`, lines 124-126), a depth/IR bundle, or the
driver callback enqueuing an RGB frame (line 56) from its own thread. -/
inductive LEv
  | timeout
  | bundle (hasDepth hasIR : Bool) (depthPayload tsPayload : ℕ)
  | rgbArrive (payload : ℕ)

/-- One successful `wait_for_frames` iteration (lines 127-143): if the
depth or the IR sub-frame is missing the bundle is dropped (line 128);
otherwise the depth payload and its timestamp are stored at row
`depth_idx` (which is then incremented), the IR frame is written, and the
RGB queue is polled non-blockingly: `poll_for_frame` pops at most one
pending frame, which is written only while `rgb_count` is below
`RGB_FPS * BLOCK_SEC` (lines 141-143). -/
def ltick (s : LState) (hasD hasI : Bool) (dPay tsPay : ℕ) : LState :=
  if hasD && hasI then
    let s1 : LState :=
      { s with
        h5 := writeTsRow (writeDepthRow s.h5 s.depth_idx dPay) s.depth_idx tsPay,
        depth_idx := s.depth_idx + 1, ir_count := s.ir_count + 1 }
    match s1.rgbQueue with
    | [] => s1
    | r :: q =>
      if s1.rgb_count < RGB_FPS * BLOCK_SEC then
        { s1 with rgbQueue := q, rgbWritten := s1.rgbWritten ++ [r],
                  rgb_count := s1.rgb_count + 1 }
      else { s1 with rgbQueue := q }
  else s

/-- The driver callback `lambda f: q_rgb.enqueue(f)` on the bounded
`rs.frame_queue(QUEUE_SIZE)`: when full, the oldest frame is dropped. -/
def enqueueRgb (s : LState) (p : ℕ) : LState :=
  if s.rgbQueue.length < QUEUE_SIZE then { s with rgbQueue := s.rgbQueue ++ [p] }
  else { s with rgbQueue := s.rgbQueue.drop 1 ++ [p] }

/-- One event of the lossless loop. -/
def lstep (s : LState) : LEv → LState
  | LEv.timeout => s
  | LEv.bundle hd hi dp tp => ltick s hd hi dp tp
  | LEv.rgbArrive p => enqueueRgb s p

/-- The inner loop guard (line 123):
`while depth_idx < DEPTH_FPS * BLOCK_SEC`.  Note: it counts frames, it
does not read the clock. -/
def loopGuard (s : LState) : Bool := decide (s.depth_idx < DEPTH_FPS * BLOCK_SEC)

/-- Block start (lines 116-120): fresh h5 file and writers,
`depth_idx = ir_count = rgb_count = 0`; the RGB queue keeps whatever the
driver thread has already enqueued. -/
def blockStart (q : List ℕ) : LState :=
  { h5 := open_h5, depth_idx := 0, ir_count := 0, rgb_count := 0,
    rgbQueue := q, rgbWritten := [] }

/-- Run the inner loop: the guard is evaluated between iterations, and
once false the loop body never runs again. -/
def lrun (s : LState) : List LEv → LState
  | [] => s
  | e :: es => if loopGuard s then lrun (lstep s e) es else s

/-- Cleanup on `KeyboardInterrupt`: the `finally` at lines 152-153 closes
the h5 file and releases both writers when the interrupt lands inside the
block; there is no outer handler, and `pipe.stop()` is never called
anywhere in this script, so the device session is not stopped. -/
def interruptCleanup : Phase → List CleanupOp
  | Phase.betweenBlocks => []
  | Phase.inBlock =>
      [CleanupOp.closeH5, CleanupOp.releaseIRWriter, CleanupOp.releaseRGBWriter]

end Lossless

namespace InfoFile

/-! Model of the info/metadata file writes of the variants, over an
abstract file system mapping paths to file contents (a list of line
identifiers). -/

/-- An abstract file system: path → content (list of lines), `none` when
the file does not exist. -/
def FS : Type := ℕ → Option (List ℕ)

/-- Read a file's content. -/
def fsGet (fs : FS) (p : ℕ) : Option (List ℕ) := fs p

/-- Replace a file's content. -/
def fsSet (fs : FS) (p : ℕ) (v : List ℕ) : FS :=
  fun q => if q = p then some v else fs q

/-- `open(path, "a")` followed by `writelines(lines)`: the new lines go
after whatever content the file already had (an absent file reads as
empty). -/
def openAppendLines (fs : FS) (p : ℕ) (lines : List ℕ) : FS :=
  fsSet fs p ((fsGet fs p).getD [] ++ lines)

/-- `open(path, "w")` followed by writes: the file now holds exactly the
new lines; any prior content at that path is truncated away. -/
def openWriteLines (fs : FS) (p : ℕ) (lines : List ℕ) : FS :=
  fsSet fs p lines

/-- `H_depth_ir_autosplit.write_run_info` (lines 114-133): appends the
session record to the per-day `000_RUN_INFO.txt` with mode `"a"`
(line 132). -/
def write_run_info (fs : FS) (infoPath : ℕ) (record : List ℕ) : FS :=
  openAppendLines fs infoPath record

/-- The info write of `H_rgb_ir.py` (lines 104-110) and
`H_rgb_ir_depth.py` (lines 136-145): `open(info_path, "w")` on the
per-session `{timestamp}_info.txt`. -/
def writeInfoW (fs : FS) (infoPath : ℕ) (record : List ℕ) : FS :=
  openWriteLines fs infoPath record

/-- The info write of `lossless_RGB_IR_depth.py` (lines 106-114): the
write-mode open happens only when the file does not already exist. -/
def writeInfoIfAbsent (fs : FS) (infoPath : ℕ) (record : List ℕ) : FS :=
  if (fsGet fs infoPath).isSome then fs else openWriteLines fs infoPath record

/-- A concrete file system with one info file (path 7, lines 1,2,3). -/
def demoFS : FS := fun q => if q = 7 then some [1, 2, 3] else none

end InfoFile

/-- Modelled from the spec: the spec's stated inner-loop exit
condition — the block's inner loop exits "when the elapsed wall-clock
time since block start exceeds the configured block duration".  It is
compared below with the guards the scripts actually use. -/
def specTimedBlockExit (blockSec : ℕ) (elapsed : ℚ) : Bool :=
  decide ((blockSec : ℚ) < elapsed)

/-- C2: for the percentile-clip depth-to-8-bit conversion, an all-zero
depth buffer maps to an all-zero output buffer; the percentile population
is exactly the strictly-positive samples, and when that population is
empty the divisor defaults to 1. -/
theorem c2_depth_to_8bit_all_zero (n : ℕ) :
    Autosplit.depth_to_8bit (List.replicate n 0) = List.replicate n 0 ∧
    Autosplit.depthVmax (List.replicate n 0) = 1 ∧
    Autosplit.valid_of (List.replicate n 0) =
      (List.replicate n 0).filter (fun v => 0 < v) := by
  have hvalid : Autosplit.valid_of (List.replicate n 0) = [] := by
    simp [Autosplit.valid_of]
  have hvmax : Autosplit.depthVmax (List.replicate n 0) = 1 := by
    simp [Autosplit.depthVmax, hvalid]
  refine ⟨?_, hvmax, rfl⟩
  simp only [Autosplit.depth_to_8bit, hvmax]
  rw [List.map_replicate]
  norm_num [Autosplit.clip]

/-- Helper: one step of the autosplit loop preserves the equality of the
depth-row and timestamp-row counts. -/
theorem aux_autosplit_step_rows (s : Autosplit.BlockState) (e : Ev)
    (h : s.depthRows = s.tsRows) :
    (Autosplit.step s e).depthRows = (Autosplit.step s e).tsRows := by
  cases e with
  | timeout => simpa [Autosplit.step] using h
  | bundle b =>
    simp only [Autosplit.step, Autosplit.tick]
    split
    · split <;> simp [h]
    · exact h

/-- Helper: running the autosplit inner loop preserves the equality of
the depth-row and timestamp-row counts. -/
theorem aux_autosplit_run_rows (s : Autosplit.BlockState) (es : List Ev)
    (h : s.depthRows = s.tsRows) :
    (Autosplit.runBlock s es).depthRows = (Autosplit.runBlock s es).tsRows := by
  induction es generalizing s with
  | nil => simpa [Autosplit.runBlock] using h
  | cons e es ih =>
    simp only [Autosplit.runBlock]
    exact ih _ (aux_autosplit_step_rows s e h)

/-- Helper: one step of the H_rgb_ir_depth loop preserves the equality of
the depth-row and timestamp-row counts. -/
theorem aux_rgbirdepth_step_rows (s : RgbIrDepth.BlockState) (e : Ev)
    (h : s.depthRows = s.tsRows) :
    (RgbIrDepth.step s e).depthRows = (RgbIrDepth.step s e).tsRows := by
  cases e with
  | timeout => simpa [RgbIrDepth.step] using h
  | bundle b =>
    simp only [RgbIrDepth.step, RgbIrDepth.tick]
    split <;> simp [h]

/-- Helper: running the H_rgb_ir_depth inner loop preserves the equality
of the depth-row and timestamp-row counts. -/
theorem aux_rgbirdepth_run_rows (s : RgbIrDepth.BlockState) (es : List Ev)
    (h : s.depthRows = s.tsRows) :
    (RgbIrDepth.runBlock s es).depthRows = (RgbIrDepth.runBlock s es).tsRows := by
  induction es generalizing s with
  | nil => simpa [RgbIrDepth.runBlock] using h
  | cons e es ih =>
    simp only [RgbIrDepth.runBlock]
    exact ih _ (aux_rgbirdepth_step_rows s e h)

/-- Helper: no lossless event changes the (fixed) dataset sizes of the
open h5 file. -/
theorem aux_lstep_sizes (s : Lossless.LState) (e : Lossless.LEv) :
    (Lossless.lstep s e).h5.depthSize = s.h5.depthSize ∧
    (Lossless.lstep s e).h5.tsSize = s.h5.tsSize := by
  cases e with
  | timeout => exact ⟨rfl, rfl⟩
  | rgbArrive p =>
    simp only [Lossless.lstep, Lossless.enqueueRgb]
    split <;> exact ⟨rfl, rfl⟩
  | bundle hd hi dp tp =>
    simp only [Lossless.lstep, Lossless.ltick, Lossless.writeDepthRow,
      Lossless.writeTsRow]
    split
    · split
      · exact ⟨rfl, rfl⟩
      · split <;> exact ⟨rfl, rfl⟩
    · exact ⟨rfl, rfl⟩

/-- Helper: the lossless inner loop never changes the dataset sizes. -/
theorem aux_lrun_sizes (s : Lossless.LState) (es : List Lossless.LEv) :
    (Lossless.lrun s es).h5.depthSize = s.h5.depthSize ∧
    (Lossless.lrun s es).h5.tsSize = s.h5.tsSize := by
  induction es generalizing s with
  | nil => exact ⟨rfl, rfl⟩
  | cons e es ih =>
    simp only [Lossless.lrun]
    split
    · have h1 := aux_lstep_sizes s e
      have h2 := ih (Lossless.lstep s e)
      exact ⟨h2.1.trans h1.1, h2.2.trans h1.2⟩
    · exact ⟨rfl, rfl⟩

/-- C3: in every depth-recording variant, after a block the number of
rows of the depth dataset equals the number of entries of the timestamp
dataset: in H_depth_ir_autosplit and H_rgb_ir_depth each persisted depth
frame appends one row and one timestamp in the same tick, and in
lossless_RGB_IR_depth both datasets are created with the same fixed
size. -/
theorem c3_depth_rows_eq_ts_rows :
    (∀ (p : Autosplit.ProcState) (es : List Ev),
        (Autosplit.runBlock (Autosplit.blockStart p) es).depthRows =
          (Autosplit.runBlock (Autosplit.blockStart p) es).tsRows) ∧
    (∀ (hdl : ℕ) (es : List Ev),
        (RgbIrDepth.runBlock (RgbIrDepth.blockStart hdl) es).depthRows =
          (RgbIrDepth.runBlock (RgbIrDepth.blockStart hdl) es).tsRows) ∧
    (∀ (q : List ℕ) (es : List Lossless.LEv),
        (Lossless.lrun (Lossless.blockStart q) es).h5.depthSize =
          (Lossless.lrun (Lossless.blockStart q) es).h5.tsSize) := by
  refine ⟨fun p es => aux_autosplit_run_rows _ es rfl,
          fun hdl es => aux_rgbirdepth_run_rows _ es rfl,
          fun q es => ?_⟩
  have h := aux_lrun_sizes (Lossless.blockStart q) es
  rw [h.1, h.2]
  rfl

/-- C6: in every variant, a bundle missing any requested sub-stream is
discarded whole for that tick: no sink receives anything and no counter
moves (the tick is the identity on the block state). -/
theorem c6_incomplete_bundle_discarded :
    (∀ (s : Autosplit.BlockState) (hi hc : Bool),
        Autosplit.tick s ⟨false, hi, hc⟩ = s) ∧
    (∀ (s : Autosplit.BlockState) (hd hc : Bool),
        Autosplit.tick s ⟨hd, false, hc⟩ = s) ∧
    (∀ (s : RgbIrDepth.BlockState) (hi hc : Bool),
        RgbIrDepth.tick s ⟨false, hi, hc⟩ = s) ∧
    (∀ (s : RgbIrDepth.BlockState) (hd hc : Bool),
        RgbIrDepth.tick s ⟨hd, false, hc⟩ = s) ∧
    (∀ (s : RgbIrDepth.BlockState) (hd hi : Bool),
        RgbIrDepth.tick s ⟨hd, hi, false⟩ = s) ∧
    (∀ (s : RgbIr.BlockState) (hd hc : Bool),
        RgbIr.tick s ⟨hd, false, hc⟩ = s) ∧
    (∀ (s : RgbIr.BlockState) (hd hi : Bool),
        RgbIr.tick s ⟨hd, hi, false⟩ = s) ∧
    (∀ (s : Lossless.LState) (hi : Bool) (dp tp : ℕ),
        Lossless.ltick s false hi dp tp = s) ∧
    (∀ (s : Lossless.LState) (hd : Bool) (dp tp : ℕ),
        Lossless.ltick s hd false dp tp = s) := by
  refine ⟨?_, ?_, ?_, ?_, ?_, ?_, ?_, ?_, ?_⟩ <;>
    intros <;>
    simp [Autosplit.tick, RgbIrDepth.tick, RgbIr.tick, Lossless.ltick]

/-- Helper: a run of consecutive frame-wait timeouts is invisible to the
autosplit block state. -/
theorem aux_autosplit_timeouts (s : Autosplit.BlockState) (n : ℕ) :
    Autosplit.runBlock s (List.replicate n Ev.timeout) = s := by
  induction n with
  | zero => rfl
  | succ n ih => simpa [List.replicate_succ, Autosplit.runBlock, Autosplit.step] using ih

/-- Helper: a run of consecutive frame-wait timeouts is invisible to the
H_rgb_ir_depth block state. -/
theorem aux_rgbirdepth_timeouts (s : RgbIrDepth.BlockState) (n : ℕ) :
    RgbIrDepth.runBlock s (List.replicate n Ev.timeout) = s := by
  induction n with
  | zero => rfl
  | succ n ih => simpa [List.replicate_succ, RgbIrDepth.runBlock, RgbIrDepth.step] using ih

/-- Helper: a run of consecutive frame-wait timeouts is invisible to the
H_rgb_ir block state. -/
theorem aux_rgbir_timeouts (s : RgbIr.BlockState) (n : ℕ) :
    RgbIr.runBlock s (List.replicate n Ev.timeout) = s := by
  induction n with
  | zero => rfl
  | succ n ih => simpa [List.replicate_succ, RgbIr.runBlock, RgbIr.step] using ih

/-- Helper: a run of consecutive frame-wait timeouts is invisible to the
lossless block state. -/
theorem aux_lossless_timeouts (s : Lossless.LState) (n : ℕ) :
    Lossless.lrun s (List.replicate n Lossless.LEv.timeout) = s := by
  induction n with
  | zero => rfl
  | succ n ih =>
    simp only [List.replicate_succ, Lossless.lrun, Lossless.lstep]
    split
    · exact ih
    · rfl

/-- C7: in every variant's in-block loop, a frame-wait timeout is retried
silently and indefinitely: the timeout branch is the identity on the
block state (nothing is written, no counter or budget moves, nothing is
logged), any number of consecutive timeouts still leaves the state
untouched, and a timeout never changes whether the loop continues (shown
for the lossless variant, whose guard reads the state). -/
theorem c7_timeout_silent_retry :
    (∀ s : Autosplit.BlockState, Autosplit.step s Ev.timeout = s) ∧
    (∀ (s : Autosplit.BlockState) (n : ℕ),
        Autosplit.runBlock s (List.replicate n Ev.timeout) = s) ∧
    (∀ s : RgbIrDepth.BlockState, RgbIrDepth.step s Ev.timeout = s) ∧
    (∀ (s : RgbIrDepth.BlockState) (n : ℕ),
        RgbIrDepth.runBlock s (List.replicate n Ev.timeout) = s) ∧
    (∀ s : RgbIr.BlockState, RgbIr.step s Ev.timeout = s) ∧
    (∀ (s : RgbIr.BlockState) (n : ℕ),
        RgbIr.runBlock s (List.replicate n Ev.timeout) = s) ∧
    (∀ s : Lossless.LState, Lossless.lstep s Lossless.LEv.timeout = s) ∧
    (∀ (s : Lossless.LState) (n : ℕ),
        Lossless.lrun s (List.replicate n Lossless.LEv.timeout) = s) ∧
    (∀ (s : Lossless.LState) (n : ℕ),
        Lossless.loopGuard
            (Lossless.lrun s (List.replicate n Lossless.LEv.timeout)) =
          Lossless.loopGuard s) :=
  ⟨fun _ => rfl, aux_autosplit_timeouts,
   fun _ => rfl, aux_rgbirdepth_timeouts,
   fun _ => rfl, aux_rgbir_timeouts,
   fun _ => rfl, aux_lossless_timeouts,
   fun s n => congrArg Lossless.loopGuard (aux_lossless_timeouts s n)⟩

/-- C1 (code evaluated at the failing input): when a KeyboardInterrupt
lands while H_depth_ir_autosplit is inside a block, the executed cleanup
is only the outer finally (window teardown and pipe stop) — the open HDF5
file and the video writer are NOT closed, because the sink-closing code
at line 231 is not protected by any try/finally; and in
lossless_RGB_IR_depth the in-block finally closes the sinks but the
device session is never stopped.  The two remaining variants do close
their sinks and stop the pipeline. -/
theorem c1_interrupt_cleanup_eval :
    Autosplit.interruptCleanup Phase.inBlock =
      [CleanupOp.destroyWindows, CleanupOp.pipeStop] ∧
    CleanupOp.closeH5 ∉ Autosplit.interruptCleanup Phase.inBlock ∧
    CleanupOp.releaseIRWriter ∉ Autosplit.interruptCleanup Phase.inBlock ∧
    CleanupOp.pipeStop ∉ Lossless.interruptCleanup Phase.inBlock ∧
    CleanupOp.closeH5 ∈ Lossless.interruptCleanup Phase.inBlock ∧
    CleanupOp.closeH5 ∈ RgbIrDepth.interruptCleanup Phase.inBlock ∧
    CleanupOp.pipeStop ∈ RgbIrDepth.interruptCleanup Phase.inBlock ∧
    CleanupOp.releaseIRWriter ∈ RgbIr.interruptCleanup Phase.inBlock ∧
    CleanupOp.pipeStop ∈ RgbIr.interruptCleanup Phase.inBlock := by
  refine ⟨rfl, ?_, ?_, ?_, ?_, ?_, ?_, ?_, ?_⟩ <;> decide

/-- C4 counterexample: in the lossless variant the inner loop's guard is
`depth_idx < DEPTH_FPS * BLOCK_SEC`; at a block start (no depth frame
stored yet) with 61 seconds of wall-clock time already elapsed, the
spec's exit condition (elapsed exceeds the 60 s block duration) holds,
yet the code's guard still says "continue" — so the loop does not exit
when the elapsed time exceeds the block duration. -/
theorem c4_counterexample_lossless_count_guard :
    ¬ ((Lossless.loopGuard (Lossless.blockStart []) = false) ↔
        specTimedBlockExit Lossless.BLOCK_SEC 61 = true) := by
  decide

/-- C4 (amended): in H_depth_ir_autosplit, H_rgb_ir and H_rgb_ir_depth
the inner loop's continuation is decided at the top of each iteration and
the loop exits precisely when elapsed wall-clock time since block start
exceeds the configured block duration (once exceeded the remaining events
are never processed, so a closed block is never revisited); in
lossless_RGB_IR_depth the inner loop instead exits precisely when the
depth-frame counter reaches DEPTH_FPS * BLOCK_SEC, regardless of elapsed
time. -/
theorem c4_block_exit_amended :
    (∀ (e : ℚ), Autosplit.blockBroke e = true ↔ (Autosplit.BLOCK_SECONDS : ℚ) < e) ∧
    (∀ (s : Autosplit.BlockState) (el : ℚ) (es : List (Ev × ℚ)),
        (Autosplit.BLOCK_SECONDS : ℚ) < el →
        Autosplit.runBlockT s el es = (s, el)) ∧
    (∀ (s : Autosplit.BlockState) (el : ℚ) (e : Ev) (dt : ℚ) (es : List (Ev × ℚ)),
        el ≤ (Autosplit.BLOCK_SECONDS : ℚ) →
        Autosplit.runBlockT s el ((e, dt) :: es) =
          Autosplit.runBlockT (Autosplit.step s e) (el + dt) es) ∧
    (∀ (s : RgbIrDepth.BlockState) (el : ℚ) (es : List (Ev × ℚ)),
        (RgbIrDepth.BLOCK_SECONDS : ℚ) < el →
        RgbIrDepth.runBlockT s el es = (s, el)) ∧
    (∀ (s : RgbIrDepth.BlockState) (el : ℚ) (e : Ev) (dt : ℚ) (es : List (Ev × ℚ)),
        el ≤ (RgbIrDepth.BLOCK_SECONDS : ℚ) →
        RgbIrDepth.runBlockT s el ((e, dt) :: es) =
          RgbIrDepth.runBlockT (RgbIrDepth.step s e) (el + dt) es) ∧
    (∀ (s : RgbIr.BlockState) (el : ℚ) (es : List (Ev × ℚ)),
        (RgbIr.BLOCK_SECONDS : ℚ) < el →
        RgbIr.runBlockT s el es = (s, el)) ∧
    (∀ (s : RgbIr.BlockState) (el : ℚ) (e : Ev) (dt : ℚ) (es : List (Ev × ℚ)),
        el ≤ (RgbIr.BLOCK_SECONDS : ℚ) →
        RgbIr.runBlockT s el ((e, dt) :: es) =
          RgbIr.runBlockT (RgbIr.step s e) (el + dt) es) ∧
    (∀ s : Lossless.LState,
        Lossless.loopGuard s = false ↔
          Lossless.DEPTH_FPS * Lossless.BLOCK_SEC ≤ s.depth_idx) ∧
    (∀ (s : Lossless.LState) (es : List Lossless.LEv),
        Lossless.loopGuard s = false → Lossless.lrun s es = s) ∧
    (∀ (s : Lossless.LState) (e : Lossless.LEv) (es : List Lossless.LEv),
        Lossless.loopGuard s = true →
        Lossless.lrun s (e :: es) = Lossless.lrun (Lossless.lstep s e) es) := by
  refine ⟨?_, ?_, ?_, ?_, ?_, ?_, ?_, ?_, ?_, ?_⟩
  · intro e
    simp [Autosplit.blockBroke]
  · intro s el es h
    cases es with
    | nil => rfl
    | cons e es =>
      obtain ⟨ev, dt⟩ := e
      simp only [Autosplit.runBlockT]
      rw [if_pos]
      simpa [Autosplit.blockBroke]
  · intro s el e dt es h
    simp only [Autosplit.runBlockT]
    rw [if_neg]
    simp [Autosplit.blockBroke, not_lt.mpr h]
  · intro s el es h
    cases es with
    | nil => rfl
    | cons e es =>
      obtain ⟨ev, dt⟩ := e
      simp only [RgbIrDepth.runBlockT]
      rw [if_neg]
      simp [RgbIrDepth.loopContinues, not_le.mpr h]
  · intro s el e dt es h
    simp only [RgbIrDepth.runBlockT]
    rw [if_pos]
    simpa [RgbIrDepth.loopContinues]
  · intro s el es h
    cases es with
    | nil => rfl
    | cons e es =>
      obtain ⟨ev, dt⟩ := e
      simp only [RgbIr.runBlockT]
      rw [if_neg]
      simp [RgbIr.loopContinues, not_le.mpr h]
  · intro s el e dt es h
    simp only [RgbIr.runBlockT]
    rw [if_pos]
    simpa [RgbIr.loopContinues]
  · intro s
    simp [Lossless.loopGuard, not_lt]
  · intro s es h
    cases es with
    | nil => rfl
    | cons e es =>
      simp only [Lossless.lrun]
      rw [if_neg]
      simp [h]
  · intro s e es h
    simp only [Lossless.lrun]
    rw [if_pos h]

/-- Witness for the amended C4: concrete instances of every
hypothesis-bearing part. -/
theorem c4_block_exit_amended_witness :
    (Autosplit.runBlockT (Autosplit.blockStart ⟨0, 0⟩) 61 [(Ev.timeout, 1)] =
      (Autosplit.blockStart ⟨0, 0⟩, 61)) ∧
    (Autosplit.runBlockT (Autosplit.blockStart ⟨0, 0⟩) 10 [(Ev.timeout, 1)] =
      Autosplit.runBlockT (Autosplit.step (Autosplit.blockStart ⟨0, 0⟩) Ev.timeout) (10 + 1) []) ∧
    (RgbIrDepth.runBlockT (RgbIrDepth.blockStart 0) 61 [(Ev.timeout, 1)] =
      (RgbIrDepth.blockStart 0, 61)) ∧
    (RgbIrDepth.runBlockT (RgbIrDepth.blockStart 0) 10 [(Ev.timeout, 1)] =
      RgbIrDepth.runBlockT (RgbIrDepth.step (RgbIrDepth.blockStart 0) Ev.timeout) (10 + 1) []) ∧
    (RgbIr.runBlockT (RgbIr.blockStart 0) 61 [(Ev.timeout, 1)] =
      (RgbIr.blockStart 0, 61)) ∧
    (RgbIr.runBlockT (RgbIr.blockStart 0) 10 [(Ev.timeout, 1)] =
      RgbIr.runBlockT (RgbIr.step (RgbIr.blockStart 0) Ev.timeout) (10 + 1) []) ∧
    (Lossless.lrun { Lossless.blockStart [] with depth_idx := 1800 }
        [Lossless.LEv.timeout] = { Lossless.blockStart [] with depth_idx := 1800 }) ∧
    (Lossless.lrun (Lossless.blockStart []) [Lossless.LEv.timeout] =
      Lossless.lrun (Lossless.lstep (Lossless.blockStart []) Lossless.LEv.timeout) []) :=
  ⟨c4_block_exit_amended.2.1 _ 61 _ (by norm_num [Autosplit.BLOCK_SECONDS, Autosplit.FILE_PERIOD_MIN]),
   c4_block_exit_amended.2.2.1 _ 10 _ 1 _ (by norm_num [Autosplit.BLOCK_SECONDS, Autosplit.FILE_PERIOD_MIN]),
   c4_block_exit_amended.2.2.2.1 _ 61 _ (by norm_num [RgbIrDepth.BLOCK_SECONDS, RgbIrDepth.FILE_PERIOD_MIN]),
   c4_block_exit_amended.2.2.2.2.1 _ 10 _ 1 _ (by norm_num [RgbIrDepth.BLOCK_SECONDS, RgbIrDepth.FILE_PERIOD_MIN]),
   c4_block_exit_amended.2.2.2.2.2.1 _ 61 _ (by norm_num [RgbIr.BLOCK_SECONDS, RgbIr.FILE_PERIOD_MIN]),
   c4_block_exit_amended.2.2.2.2.2.2.1 _ 10 _ 1 _ (by norm_num [RgbIr.BLOCK_SECONDS, RgbIr.FILE_PERIOD_MIN]),
   c4_block_exit_amended.2.2.2.2.2.2.2.2.1 _ _ (by decide),
   c4_block_exit_amended.2.2.2.2.2.2.2.2.2 _ Lossless.LEv.timeout _ (by decide)⟩

/-- C5 counterexample: the info write of H_rgb_ir / H_rgb_ir_depth opens
its info path with mode "w", which truncates: on a file system whose
info path (7) already holds a session record (lines 1,2,3), writing a new
session record (line 9) leaves the file holding only the new record — the
prior content is gone, not appended to. -/
theorem c5_counterexample_info_write_truncates :
    InfoFile.fsGet InfoFile.demoFS 7 = some [1, 2, 3] ∧
    InfoFile.fsGet (InfoFile.writeInfoW InfoFile.demoFS 7 [9]) 7 = some [9] ∧
    some [9] ≠ some ([1, 2, 3] ++ [9]) := by
  refine ⟨rfl, rfl, ?_⟩
  decide

/-- C5 (amended): H_depth_ir_autosplit opens its per-day info file in
append mode, so a session's record lands after all previously written
content (never truncating it, one record block per session);
H_rgb_ir and H_rgb_ir_depth instead create a per-session info file in
write mode, which leaves the content of every OTHER path untouched (prior
sessions survive only because each session normally uses a distinct
timestamp-named path, while a write to an existing path replaces its
content); lossless_RGB_IR_depth skips the write when the file already
exists, and writes the record to an absent file. -/
theorem c5_info_write_amended :
    (∀ (fs : InfoFile.FS) (p : ℕ) (rec : List ℕ),
        InfoFile.fsGet (InfoFile.write_run_info fs p rec) p =
          some ((InfoFile.fsGet fs p).getD [] ++ rec)) ∧
    (∀ (fs : InfoFile.FS) (p q : ℕ) (rec : List ℕ), q ≠ p →
        InfoFile.fsGet (InfoFile.writeInfoW fs p rec) q = InfoFile.fsGet fs q) ∧
    (∀ (fs : InfoFile.FS) (p : ℕ) (rec : List ℕ),
        (InfoFile.fsGet fs p).isSome = true →
        InfoFile.writeInfoIfAbsent fs p rec = fs) ∧
    (∀ (fs : InfoFile.FS) (p : ℕ) (rec : List ℕ),
        InfoFile.fsGet fs p = none →
        InfoFile.fsGet (InfoFile.writeInfoIfAbsent fs p rec) p = some rec) := by
  refine ⟨?_, ?_, ?_, ?_⟩
  · intro fs p rec
    simp [InfoFile.write_run_info, InfoFile.openAppendLines, InfoFile.fsSet,
      InfoFile.fsGet]
  · intro fs p q rec h
    simp [InfoFile.writeInfoW, InfoFile.openWriteLines, InfoFile.fsSet,
      InfoFile.fsGet, h]
  · intro fs p rec h
    simp [InfoFile.writeInfoIfAbsent, h]
  · intro fs p rec h
    simp only [InfoFile.fsGet] at h
    simp [InfoFile.writeInfoIfAbsent, InfoFile.openWriteLines, InfoFile.fsSet,
      InfoFile.fsGet, h]

/-- Witness for the amended C5: concrete instances of every part. -/
theorem c5_info_write_amended_witness :
    (InfoFile.fsGet (InfoFile.write_run_info InfoFile.demoFS 7 [9]) 7 =
      some ((InfoFile.fsGet InfoFile.demoFS 7).getD [] ++ [9])) ∧
    (InfoFile.fsGet (InfoFile.writeInfoW InfoFile.demoFS 3 [9]) 7 =
      InfoFile.fsGet InfoFile.demoFS 7) ∧
    (InfoFile.writeInfoIfAbsent InfoFile.demoFS 7 [9] = InfoFile.demoFS) ∧
    (InfoFile.fsGet (InfoFile.writeInfoIfAbsent InfoFile.demoFS 3 [9]) 3 =
      some [9]) :=
  ⟨c5_info_write_amended.1 InfoFile.demoFS 7 [9],
   c5_info_write_amended.2.1 InfoFile.demoFS 3 7 [9] (by decide),
   c5_info_write_amended.2.2.1 InfoFile.demoFS 7 [9] (by decide),
   c5_info_write_amended.2.2.2 InfoFile.demoFS 3 [9] (by decide)⟩

/-- Helper: one step of the autosplit loop never decreases any counter. -/
theorem aux_autosplit_step_mono (s : Autosplit.BlockState) (e : Ev) :
    s.saved_depth ≤ (Autosplit.step s e).saved_depth ∧
    s.frame_id ≤ (Autosplit.step s e).frame_id ∧
    s.irWritten ≤ (Autosplit.step s e).irWritten ∧
    s.depthRows ≤ (Autosplit.step s e).depthRows ∧
    s.tsRows ≤ (Autosplit.step s e).tsRows := by
  cases e with
  | timeout => simp [Autosplit.step]
  | bundle b =>
    simp only [Autosplit.step, Autosplit.tick]
    split
    · split <;> simp
    · simp

/-- Helper: the autosplit inner loop never decreases any counter. -/
theorem aux_autosplit_run_mono (s : Autosplit.BlockState) (es : List Ev) :
    s.saved_depth ≤ (Autosplit.runBlock s es).saved_depth ∧
    s.frame_id ≤ (Autosplit.runBlock s es).frame_id ∧
    s.irWritten ≤ (Autosplit.runBlock s es).irWritten ∧
    s.depthRows ≤ (Autosplit.runBlock s es).depthRows ∧
    s.tsRows ≤ (Autosplit.runBlock s es).tsRows := by
  induction es generalizing s with
  | nil => simp [Autosplit.runBlock]
  | cons e es ih =>
    have h1 := aux_autosplit_step_mono s e
    have h2 := ih (Autosplit.step s e)
    simp only [Autosplit.runBlock]
    exact ⟨h1.1.trans h2.1, h1.2.1.trans h2.2.1, h1.2.2.1.trans h2.2.2.1,
      h1.2.2.2.1.trans h2.2.2.2.1, h1.2.2.2.2.trans h2.2.2.2.2⟩

/-- Helper: one step of the autosplit loop never touches the handle of
the block's open sinks. -/
theorem aux_autosplit_step_handle (s : Autosplit.BlockState) (e : Ev) :
    (Autosplit.step s e).handle = s.handle := by
  cases e with
  | timeout => rfl
  | bundle b =>
    simp only [Autosplit.step, Autosplit.tick]
    split
    · split <;> rfl
    · rfl

/-- Helper: the autosplit inner loop never touches the handle of the
block's open sinks. -/
theorem aux_autosplit_run_handle (s : Autosplit.BlockState) (es : List Ev) :
    (Autosplit.runBlock s es).handle = s.handle := by
  induction es generalizing s with
  | nil => rfl
  | cons e es ih =>
    simp only [Autosplit.runBlock]
    exact (ih (Autosplit.step s e)).trans (aux_autosplit_step_handle s e)

/-- Helper: each completed autosplit block consumes exactly one fresh
handle, so the handle used by the i-th block is the initial counter plus
i, distinct across blocks. -/
theorem aux_autosplit_runBlocks_handle (p : Autosplit.ProcState)
    (ess : List (List Ev)) :
    (Autosplit.runBlocks p ess).nextHandle = p.nextHandle + ess.length := by
  induction ess generalizing p with
  | nil => simp [Autosplit.runBlocks]
  | cons es rest ih =>
    simp only [Autosplit.runBlocks, List.length_cons]
    rw [ih]
    have h : (Autosplit.blockEnd
        (Autosplit.runBlock (Autosplit.blockStart p) es)).nextHandle =
        p.nextHandle + 1 := by
      simp [Autosplit.blockEnd, aux_autosplit_run_handle, Autosplit.blockStart]
    rw [h]
    omega

/-- Helper: one step of the H_rgb_ir_depth loop never decreases any
counter. -/
theorem aux_rgbirdepth_step_mono (s : RgbIrDepth.BlockState) (e : Ev) :
    s.frame_id ≤ (RgbIrDepth.step s e).frame_id ∧
    s.depthRows ≤ (RgbIrDepth.step s e).depthRows ∧
    s.irWritten ≤ (RgbIrDepth.step s e).irWritten ∧
    s.rgbWritten ≤ (RgbIrDepth.step s e).rgbWritten := by
  cases e with
  | timeout => simp [RgbIrDepth.step]
  | bundle b =>
    simp only [RgbIrDepth.step, RgbIrDepth.tick]
    split <;> simp

/-- Helper: the H_rgb_ir_depth inner loop never decreases any counter. -/
theorem aux_rgbirdepth_run_mono (s : RgbIrDepth.BlockState) (es : List Ev) :
    s.frame_id ≤ (RgbIrDepth.runBlock s es).frame_id ∧
    s.depthRows ≤ (RgbIrDepth.runBlock s es).depthRows ∧
    s.irWritten ≤ (RgbIrDepth.runBlock s es).irWritten ∧
    s.rgbWritten ≤ (RgbIrDepth.runBlock s es).rgbWritten := by
  induction es generalizing s with
  | nil => simp [RgbIrDepth.runBlock]
  | cons e es ih =>
    have h1 := aux_rgbirdepth_step_mono s e
    have h2 := ih (RgbIrDepth.step s e)
    simp only [RgbIrDepth.runBlock]
    exact ⟨h1.1.trans h2.1, h1.2.1.trans h2.2.1, h1.2.2.1.trans h2.2.2.1,
      h1.2.2.2.trans h2.2.2.2⟩

/-- Helper: one lossless event never decreases any counter. -/
theorem aux_lstep_mono (s : Lossless.LState) (e : Lossless.LEv) :
    s.depth_idx ≤ (Lossless.lstep s e).depth_idx ∧
    s.ir_count ≤ (Lossless.lstep s e).ir_count ∧
    s.rgb_count ≤ (Lossless.lstep s e).rgb_count := by
  cases e with
  | timeout => simp [Lossless.lstep]
  | rgbArrive p =>
    simp only [Lossless.lstep, Lossless.enqueueRgb]
    split <;> simp
  | bundle hd hi dp tp =>
    simp only [Lossless.lstep, Lossless.ltick]
    split
    · split
      · simp
      · split <;> simp
    · simp

/-- Helper: the lossless inner loop never decreases any counter. -/
theorem aux_lrun_mono (s : Lossless.LState) (es : List Lossless.LEv) :
    s.depth_idx ≤ (Lossless.lrun s es).depth_idx ∧
    s.ir_count ≤ (Lossless.lrun s es).ir_count ∧
    s.rgb_count ≤ (Lossless.lrun s es).rgb_count := by
  induction es generalizing s with
  | nil => simp [Lossless.lrun]
  | cons e es ih =>
    simp only [Lossless.lrun]
    split
    · have h1 := aux_lstep_mono s e
      have h2 := ih (Lossless.lstep s e)
      exact ⟨h1.1.trans h2.1, h1.2.1.trans h2.2.1, h1.2.2.trans h2.2.2⟩
    · simp

/-- C8 counterexample: run H_depth_ir_autosplit for one block containing
a single complete bundle, then start the next block: at that block start
the tick counter `frame_id` that drives depth decimation is 1, not 0 —
it is initialized once before the outer loop (line 161) and is never
reset at block start. -/
theorem c8_counterexample_frame_id_not_reset :
    ¬ ((Autosplit.blockStart (Autosplit.blockEnd
          (Autosplit.runBlock (Autosplit.blockStart ⟨0, 0⟩)
            [Ev.bundle ⟨true, true, false⟩]))).frame_id = 0) := by
  decide

/-- C8 (amended): in every variant the per-block counters are reset to
zero at block start (saved_depth and the dataset shapes in
H_depth_ir_autosplit; frame_id and all counts in H_rgb_ir_depth;
depth_idx, ir_count, rgb_count in lossless_RGB_IR_depth), every counter
is monotonically non-decreasing within a block, and each block's sinks
use a fresh handle that no other block ever touches; however the
decimation tick counter `frame_id` of H_depth_ir_autosplit is NOT reset
at block start: it carries the process-level value across blocks. -/
theorem c8_counters_amended :
    (∀ p : Autosplit.ProcState,
        (Autosplit.blockStart p).saved_depth = 0 ∧
        (Autosplit.blockStart p).depthRows = 0 ∧
        (Autosplit.blockStart p).tsRows = 0 ∧
        (Autosplit.blockStart p).irWritten = 0) ∧
    (∀ p : Autosplit.ProcState,
        (Autosplit.blockStart p).frame_id = p.frame_id) ∧
    (∀ (s : Autosplit.BlockState) (es : List Ev),
        s.saved_depth ≤ (Autosplit.runBlock s es).saved_depth ∧
        s.frame_id ≤ (Autosplit.runBlock s es).frame_id ∧
        s.irWritten ≤ (Autosplit.runBlock s es).irWritten) ∧
    (∀ (s : Autosplit.BlockState) (es : List Ev),
        (Autosplit.runBlock s es).handle = s.handle) ∧
    (∀ (p : Autosplit.ProcState) (ess : List (List Ev)),
        (Autosplit.runBlocks p ess).nextHandle = p.nextHandle + ess.length) ∧
    (∀ hdl : ℕ,
        (RgbIrDepth.blockStart hdl).frame_id = 0 ∧
        (RgbIrDepth.blockStart hdl).depthRows = 0 ∧
        (RgbIrDepth.blockStart hdl).irWritten = 0 ∧
        (RgbIrDepth.blockStart hdl).rgbWritten = 0) ∧
    (∀ (s : RgbIrDepth.BlockState) (es : List Ev),
        s.frame_id ≤ (RgbIrDepth.runBlock s es).frame_id ∧
        s.depthRows ≤ (RgbIrDepth.runBlock s es).depthRows) ∧
    (∀ q : List ℕ,
        (Lossless.blockStart q).depth_idx = 0 ∧
        (Lossless.blockStart q).ir_count = 0 ∧
        (Lossless.blockStart q).rgb_count = 0) ∧
    (∀ (s : Lossless.LState) (es : List Lossless.LEv),
        s.depth_idx ≤ (Lossless.lrun s es).depth_idx ∧
        s.ir_count ≤ (Lossless.lrun s es).ir_count ∧
        s.rgb_count ≤ (Lossless.lrun s es).rgb_count) :=
  ⟨fun _ => ⟨rfl, rfl, rfl, rfl⟩,
   fun _ => rfl,
   fun s es =>
     ⟨(aux_autosplit_run_mono s es).1, (aux_autosplit_run_mono s es).2.1,
      (aux_autosplit_run_mono s es).2.2.1⟩,
   aux_autosplit_run_handle,
   aux_autosplit_runBlocks_handle,
   fun _ => ⟨rfl, rfl, rfl, rfl⟩,
   fun s es =>
     ⟨(aux_rgbirdepth_run_mono s es).1, (aux_rgbirdepth_run_mono s es).2.1⟩,
   fun _ => ⟨rfl, rfl, rfl⟩,
   aux_lrun_mono⟩

/-- Helper: one lossless tick writes at most one frame to the RGB sink,
bumps the RGB counter by at most one, and pops at most one pending frame
from the RGB queue. -/
theorem aux_ltick_rgb_at_most_one (s : Lossless.LState) (hd hi : Bool)
    (dp tp : ℕ) :
    (Lossless.ltick s hd hi dp tp).rgbWritten.length ≤ s.rgbWritten.length + 1 ∧
    (Lossless.ltick s hd hi dp tp).rgb_count ≤ s.rgb_count + 1 ∧
    s.rgbQueue.length ≤ (Lossless.ltick s hd hi dp tp).rgbQueue.length + 1 := by
  simp only [Lossless.ltick]
  split
  · split
    · simp
    · split <;> simp_all
  · simp

/-- Helper: one lossless event preserves the RGB write cap. -/
theorem aux_lstep_rgb_cap (s : Lossless.LState) (e : Lossless.LEv)
    (h : s.rgb_count ≤ Lossless.RGB_FPS * Lossless.BLOCK_SEC) :
    (Lossless.lstep s e).rgb_count ≤ Lossless.RGB_FPS * Lossless.BLOCK_SEC := by
  cases e with
  | timeout => exact h
  | rgbArrive p =>
    simp only [Lossless.lstep, Lossless.enqueueRgb]
    split <;> exact h
  | bundle hd hi dp tp =>
    simp only [Lossless.lstep, Lossless.ltick]
    split
    · split
      · exact h
      · split
        · simp only
          omega
        · exact h
    · exact h

/-- Helper: the lossless inner loop preserves the RGB write cap. -/
theorem aux_lrun_rgb_cap (s : Lossless.LState) (es : List Lossless.LEv)
    (h : s.rgb_count ≤ Lossless.RGB_FPS * Lossless.BLOCK_SEC) :
    (Lossless.lrun s es).rgb_count ≤ Lossless.RGB_FPS * Lossless.BLOCK_SEC := by
  induction es generalizing s with
  | nil => exact h
  | cons e es ih =>
    simp only [Lossless.lrun]
    split
    · exact ih _ (aux_lstep_rgb_cap s e h)
    · exact h

/-- C9: in the dual-rate lossless variant, on every capture tick the RGB
queue is polled non-blockingly and at most one pending item goes to the
RGB sink (the tick pops at most one queued frame and writes at most one),
and the total number of RGB items written in a block never exceeds
RGB_FPS * BLOCK_SEC, the expected count for the block duration. -/
theorem c9_rgb_poll_at_most_one_and_capped :
    (∀ (s : Lossless.LState) (hd hi : Bool) (dp tp : ℕ),
        (Lossless.ltick s hd hi dp tp).rgbWritten.length ≤
          s.rgbWritten.length + 1 ∧
        (Lossless.ltick s hd hi dp tp).rgb_count ≤ s.rgb_count + 1 ∧
        s.rgbQueue.length ≤ (Lossless.ltick s hd hi dp tp).rgbQueue.length + 1) ∧
    (∀ (q : List ℕ) (es : List Lossless.LEv),
        (Lossless.lrun (Lossless.blockStart q) es).rgb_count ≤
          Lossless.RGB_FPS * Lossless.BLOCK_SEC) :=
  ⟨aux_ltick_rgb_at_most_one,
   fun q es => aux_lrun_rgb_cap (Lossless.blockStart q) es (Nat.zero_le _)⟩

/-- Helper: on a complete bundle, a lossless tick stores the depth
payload and the timestamp at row `depth_idx` and increments `depth_idx`;
every other row of either dataset is untouched. -/
theorem aux_ltick_h5 (s : Lossless.LState) (dp tp j : ℕ) :
    (Lossless.ltick s true true dp tp).depth_idx = s.depth_idx + 1 ∧
    (Lossless.ltick s true true dp tp).h5.depthData j =
      (if j = s.depth_idx then dp else s.h5.depthData j) ∧
    (Lossless.ltick s true true dp tp).h5.tsData j =
      (if j = s.depth_idx then tp else s.h5.tsData j) := by
  rcases hq : s.rgbQueue with _ | ⟨r, q⟩
  · simp only [Lossless.ltick, Lossless.writeDepthRow, Lossless.writeTsRow, hq]
    exact ⟨rfl, rfl, rfl⟩
  · by_cases hc : s.rgb_count < Lossless.RGB_FPS * Lossless.BLOCK_SEC <;>
      simp [Lossless.ltick, Lossless.writeDepthRow, Lossless.writeTsRow, hq, hc]

/-- Helper: one lossless event preserves the invariant that all rows at
or beyond `depth_idx` are still zero-filled. -/
theorem aux_lstep_zero_beyond (s : Lossless.LState) (e : Lossless.LEv)
    (h : ∀ j, s.depth_idx ≤ j → s.h5.depthData j = 0 ∧ s.h5.tsData j = 0) :
    ∀ j, (Lossless.lstep s e).depth_idx ≤ j →
      (Lossless.lstep s e).h5.depthData j = 0 ∧
      (Lossless.lstep s e).h5.tsData j = 0 := by
  cases e with
  | timeout => exact h
  | rgbArrive p =>
    simp only [Lossless.lstep, Lossless.enqueueRgb]
    split <;> exact h
  | bundle hd hi dp tp =>
    cases hd with
    | false => exact h
    | true =>
      cases hi with
      | false => exact h
      | true =>
        intro j hj
        have ht := aux_ltick_h5 s dp tp j
        simp only [Lossless.lstep] at hj ⊢
        rw [ht.1] at hj
        have hne : j ≠ s.depth_idx := by omega
        have h0 := h j (by omega)
        rw [ht.2.1, ht.2.2, if_neg hne, if_neg hne]
        exact h0

/-- Helper: the lossless inner loop preserves the zero-fill invariant. -/
theorem aux_lrun_zero_beyond (s : Lossless.LState) (es : List Lossless.LEv)
    (h : ∀ j, s.depth_idx ≤ j → s.h5.depthData j = 0 ∧ s.h5.tsData j = 0) :
    ∀ j, (Lossless.lrun s es).depth_idx ≤ j →
      (Lossless.lrun s es).h5.depthData j = 0 ∧
      (Lossless.lrun s es).h5.tsData j = 0 := by
  induction es generalizing s with
  | nil => exact h
  | cons e es ih =>
    simp only [Lossless.lrun]
    split
    · exact ih _ (aux_lstep_zero_beyond s e h)
    · exact h

/-- C10: in the lossless variant, the block's depth and timestamp
datasets are created with the fixed size DEPTH_FPS * BLOCK_SEC = 1800
rows and no run of the loop ever changes those sizes, regardless of how
many frames were captured before the block closed or was interrupted;
and every row at or past the next write index is still zero-filled. -/
theorem c10_lossless_fixed_1800_rows :
    (∀ (q : List ℕ) (es : List Lossless.LEv),
        (Lossless.lrun (Lossless.blockStart q) es).h5.depthSize =
          Lossless.DEPTH_FPS * Lossless.BLOCK_SEC ∧
        (Lossless.lrun (Lossless.blockStart q) es).h5.tsSize =
          Lossless.DEPTH_FPS * Lossless.BLOCK_SEC) ∧
    Lossless.DEPTH_FPS * Lossless.BLOCK_SEC = 1800 ∧
    (∀ (q : List ℕ) (es : List Lossless.LEv) (j : ℕ),
        (Lossless.lrun (Lossless.blockStart q) es).h5.depthData
            ((Lossless.lrun (Lossless.blockStart q) es).depth_idx + j) = 0 ∧
        (Lossless.lrun (Lossless.blockStart q) es).h5.tsData
            ((Lossless.lrun (Lossless.blockStart q) es).depth_idx + j) = 0) :=
  ⟨fun q es => aux_lrun_sizes (Lossless.blockStart q) es,
   rfl,
   fun q es j =>
     aux_lrun_zero_beyond (Lossless.blockStart q) es
       (fun _ _ => ⟨rfl, rfl⟩) _ (Nat.le_add_right _ j)⟩
